import Mathlib

set_option autoImplicit false

/-!
Shallow embedding of the TSDF worker service (`worker/app.py`): frame
metadata handling, camera-intrinsic derivation, rigid-pose inversion,
the per-session chunk-ingestion loop, mesh finalization, and the
session registry.  Machine floats are modelled by exact rationals;
filesystem and image-decoding outcomes are passed in as explicit
environment records; `logger`/lock side effects are captured as an
explicit event trace.
-/

/-- One entry of the observable side-effect trace of a request handler:
lock acquisition, mesh extraction, mesh file writes, and the warning-level
log calls that `ingest_chunk` makes. -/
inductive Event
  | lockAcquire
  | meshExtract
  | meshWrite
  | warnNoFrames
  | warnPreviewFailed
deriving DecidableEq, Repr

/-- The fields of the per-frame metadata JSON that
`create_intrinsic_from_meta` reads: optional depth-image size, color-image
size, optional explicit depth intrinsic `K_depth`, and the color intrinsic
`K_color`.  Sizes are (width, height); matrices are 3×3 row-major as in the
JSON. -/
structure FrameMeta where
  depthSize : Option (ℚ × ℚ)
  colorSize : ℚ × ℚ
  K_depth : Option (Matrix (Fin 3) (Fin 3) ℚ)
  K_color : Matrix (Fin 3) (Fin 3) ℚ

/-- The `o3d.camera.PinholeCameraIntrinsic(width, height, fx, fy, cx, cy)`
value constructed at `app.py:148`. -/
structure PinholeCameraIntrinsic where
  width : ℚ
  height : ℚ
  fx : ℚ
  fy : ℚ
  cx : ℚ
  cy : ℚ
deriving DecidableEq, Repr

/-- Embeds `create_intrinsic_from_meta` (`app.py:121-151`) together with its
emitted log-event trace.  The branch on `use_depth_size and 'depthSize' in
meta` picks the depth size and either the explicit `K_depth` or the scaled
copy of `K_color` (entries (0,0),(1,1),(0,2),(1,2) multiplied by the
width/height ratios, all other entries copied); otherwise the color size and
`K_color` are used.  The source function contains no `logger` call on any
path, so the trace component is `[]` on every path. -/
def create_intrinsic_from_meta_ev (meta : FrameMeta) (use_depth_size : Bool) :
    PinholeCameraIntrinsic × List Event :=
  let whK : ℚ × ℚ × Matrix (Fin 3) (Fin 3) ℚ :=
    match use_depth_size, meta.depthSize with
    | true, some (width, height) =>
      let K : Matrix (Fin 3) (Fin 3) ℚ :=
        match meta.K_depth with
        | some Kd => Kd
        | none =>
          let scale_x := width / meta.colorSize.1
          let scale_y := height / meta.colorSize.2
          Matrix.of fun i j =>
            if i = 0 ∧ j = 0 then meta.K_color i j * scale_x
            else if i = 1 ∧ j = 1 then meta.K_color i j * scale_y
            else if i = 0 ∧ j = 2 then meta.K_color i j * scale_x
            else if i = 1 ∧ j = 2 then meta.K_color i j * scale_y
            else meta.K_color i j
      (width, height, K)
    | _, _ => (meta.colorSize.1, meta.colorSize.2, meta.K_color)
  (⟨whK.1, whK.2.1, whK.2.2 0 0, whK.2.2 1 1, whK.2.2 0 2, whK.2.2 1 2⟩, [])

/-- The intrinsic returned by `create_intrinsic_from_meta`. -/
def create_intrinsic_from_meta (meta : FrameMeta) (use_depth_size : Bool) :
    PinholeCameraIntrinsic :=
  (create_intrinsic_from_meta_ev meta use_depth_size).1

/-- C5: with a depth-image size present in the metadata, the intrinsic is
built at the depth resolution; when no explicit `K_depth` exists, fx and cx
are the color intrinsic's entries times `depth_w/color_w` and fy and cy the
entries times `depth_h/color_h`, while an explicit `K_depth` is used
unscaled. -/
theorem create_intrinsic_scaling (meta : FrameMeta) (dw dh : ℚ)
    (h1 : meta.depthSize = some (dw, dh)) :
    (meta.K_depth = none →
      create_intrinsic_from_meta meta true =
        ⟨dw, dh,
         meta.K_color 0 0 * (dw / meta.colorSize.1),
         meta.K_color 1 1 * (dh / meta.colorSize.2),
         meta.K_color 0 2 * (dw / meta.colorSize.1),
         meta.K_color 1 2 * (dh / meta.colorSize.2)⟩) ∧
    (∀ Kd, meta.K_depth = some Kd →
      create_intrinsic_from_meta meta true =
        ⟨dw, dh, Kd 0 0, Kd 1 1, Kd 0 2, Kd 1 2⟩) := by
  constructor
  · intro h2
    simp [create_intrinsic_from_meta, create_intrinsic_from_meta_ev, h1, h2]
  · intro Kd h2
    simp [create_intrinsic_from_meta, create_intrinsic_from_meta_ev, h1, h2]

/-- The mutable state of one `TSDFSession` (`app.py:35-44`): whether
`tsdf_volume` is non-`None`, the configured voxel parameters, and the two
counters.  The volume's voxel contents live in the external fusion library
and are not part of this state. -/
structure TSDFSession where
  token : String
  volumeInit : Bool
  voxel_length : ℚ
  sdf_trunc : ℚ
  frame_count : ℕ
  chunk_count : ℕ
deriving DecidableEq, Repr

/-- Embeds `TSDFSession.__init__` (`app.py:36-44`): stores the token, no volume
yet, voxel length 0.02 m, truncation 0.08 m, zero counters. -/
def TSDFSession.init (token : String) : TSDFSession :=
  ⟨token, false, 1/50, 2/25, 0, 0⟩

/-- Outcome environment for processing one frame id inside `ingest_chunk`
(`app.py:228-283`): existence of the three per-frame files, success of the
metadata/depth/color loads (with the parsed metadata when it loads), success
of the `RGBDImage` construction, presence of the pose key in the metadata
(`meta['T_wc']` raises `KeyError` when absent), and success of the library
`integrate` call. -/
structure FrameEnv where
  rgbExists : Bool
  depthExists : Bool
  metaExists : Bool
  metaLoad : Option FrameMeta
  depthLoad : Bool
  colorLoad : Bool
  rgbdOk : Bool
  hasTwc : Bool
  integrateOk : Bool

/-- The loop body of `ingest_chunk` for one frame id (`app.py:228-283`):
each missing file or failed load/step counts the frame as failed and leaves
the session unchanged; on reaching `integrate_frame` (`app.py:58-66`) the
volume is lazily initialized and, if the library call succeeds, the frame
counter advances.  Returns the updated session and whether the frame was
processed (`True`) or failed (`False`). -/
def process_frame (s : TSDFSession) (f : FrameEnv) : TSDFSession × Bool :=
  if ¬ f.rgbExists then (s, false)
  else if ¬ f.depthExists then (s, false)
  else if ¬ f.metaExists then (s, false)
  else if f.metaLoad.isNone then (s, false)
  else if ¬ f.depthLoad then (s, false)
  else if ¬ f.colorLoad then (s, false)
  else if ¬ f.rgbdOk then (s, false)
  else if ¬ f.hasTwc then (s, false)
  else
    let s1 := { s with volumeInit := true }
    if ¬ f.integrateOk then (s1, false)
    else ({ s1 with frame_count := s1.frame_count + 1 }, true)

/-- A frame environment on which `process_frame` succeeds: every file
exists, every load and construction succeeds, the pose key is present, and
the library integrate call succeeds. -/
def frameOk (f : FrameEnv) : Bool :=
  f.rgbExists && f.depthExists && f.metaExists && f.metaLoad.isSome &&
    f.depthLoad && f.colorLoad && f.rgbdOk && f.hasTwc && f.integrateOk

/-- The `for frame_id in frame_ids` loop of `ingest_chunk`
(`app.py:228-283`): folds `process_frame` over the frame list in order,
accumulating the `frames_processed` and `frames_failed` counters. -/
def processFrames : TSDFSession → List FrameEnv → TSDFSession × ℕ × ℕ
  | s, [] => (s, 0, 0)
  | s, f :: fs =>
    match process_frame s f with
    | (s1, ok) =>
      match processFrames s1 fs with
      | (s2, p, q) => if ok then (s2, p + 1, q) else (s2, p, q + 1)

/-- The JSON body returned by `ingest_chunk`: the early-return dict for an
empty chunk index (`app.py:219`: `status`, `frames_processed`, `message`
only), the normal dict (`app.py:303-309`: `frames_processed`,
`frames_failed`, `total_frames`), or an `HTTPException`. -/
inductive IngestResponse
  | noFrames (frames_processed : ℕ)
  | done (frames_processed frames_failed total_frames : ℕ)
  | error (statusCode : ℕ)
deriving DecidableEq, Repr

/-- Request-level environment of one `ingest_chunk` call: whether the chunk
directory and its `index.json` exist, the parsed frame list when
`json.load` succeeds (`none` models a parse error), and whether the
post-chunk preview mesh extraction-and-write block (`app.py:289-301`)
succeeds. -/
structure ChunkEnv where
  chunkExists : Bool
  indexExists : Bool
  indexLoad : Option (List FrameEnv)
  previewOk : Bool

/-- Embeds `ingest_chunk` (`app.py:192-315`): 404 when the chunk path does
not exist, 400 when `index.json` is missing, 500 when it fails to parse;
the empty-index early return before the lock is taken; otherwise, under the
session lock, the frame loop, the `chunk_count` increment, and the
best-effort preview extraction whose failure is only logged.  Returns the
new session state, the response, and the event trace. -/
def ingest_chunk (s : TSDFSession) (env : ChunkEnv) :
    TSDFSession × IngestResponse × List Event :=
  if ¬ env.chunkExists then (s, .error 404, [])
  else if ¬ env.indexExists then (s, .error 400, [])
  else
    match env.indexLoad with
    | none => (s, .error 500, [])
    | some frame_ids =>
      if frame_ids.isEmpty then (s, .noFrames 0, [.warnNoFrames])
      else
        match processFrames s frame_ids with
        | (s1, frames_processed, frames_failed) =>
          let s2 := { s1 with chunk_count := s1.chunk_count + 1 }
          let ev := Event.lockAcquire ::
            (if env.previewOk then [Event.meshExtract, Event.meshWrite]
             else [Event.warnPreviewFailed])
          (s2, .done frames_processed frames_failed s2.frame_count, ev)

theorem process_frame_spec (s : TSDFSession) (f : FrameEnv) :
    process_frame s f =
      (if frameOk f then
        ({ s with volumeInit := true, frame_count := s.frame_count + 1 }, true)
       else if f.rgbExists && f.depthExists && f.metaExists &&
              f.metaLoad.isSome && f.depthLoad && f.colorLoad && f.rgbdOk &&
              f.hasTwc then
        ({ s with volumeInit := true }, false)
       else (s, false)) := by
  rcases f with ⟨rgb, dep, met, ml, dl, cl, ro, tw, io⟩
  cases rgb <;> cases dep <;> cases met <;> cases ml <;> cases dl <;>
    cases cl <;> cases ro <;> cases tw <;> cases io <;>
    simp [process_frame, frameOk, Option.isNone, Option.isSome]

theorem process_frame_snd (s : TSDFSession) (f : FrameEnv) :
    (process_frame s f).2 = frameOk f := by
  rw [process_frame_spec]; split_ifs <;> simp_all

theorem process_frame_frame_count (s : TSDFSession) (f : FrameEnv) :
    (process_frame s f).1.frame_count =
      s.frame_count + (if frameOk f then 1 else 0) := by
  rw [process_frame_spec]; split_ifs <;> simp_all

theorem process_frame_chunk_count (s : TSDFSession) (f : FrameEnv) :
    (process_frame s f).1.chunk_count = s.chunk_count := by
  rw [process_frame_spec]; split_ifs <;> simp_all

theorem process_frame_fst_of_fail (s : TSDFSession) (f : FrameEnv)
    (h : frameOk f = false) :
    (process_frame s f).1 = s ∨ (process_frame s f).1 = { s with volumeInit := true } := by
  rw [process_frame_spec]; split_ifs <;> simp_all

theorem processFrames_spec (frames : List FrameEnv) (s : TSDFSession) :
    (processFrames s frames).2.1 = frames.countP (fun f => frameOk f) ∧
    (processFrames s frames).2.2 = frames.countP (fun f => !(frameOk f)) ∧
    (processFrames s frames).1.frame_count =
      s.frame_count + frames.countP (fun f => frameOk f) ∧
    (processFrames s frames).1.chunk_count = s.chunk_count := by
  induction frames generalizing s with
  | nil => simp [processFrames]
  | cons f fs ih =>
    rcases hpf : process_frame s f with ⟨s1, ok⟩
    have h2 : ok = frameOk f := by
      have h := process_frame_snd s f; rw [hpf] at h; exact h
    have h3 : s1.frame_count = s.frame_count + (if frameOk f then 1 else 0) := by
      have h := process_frame_frame_count s f; rw [hpf] at h; exact h
    have h4 : s1.chunk_count = s.chunk_count := by
      have h := process_frame_chunk_count s f; rw [hpf] at h; exact h
    obtain ⟨i1, i2, i3, i4⟩ := ih s1
    rcases hps : processFrames s1 fs with ⟨s2, p, q⟩
    rw [hps] at i1 i2 i3 i4
    simp only [processFrames, hpf, hps, List.countP_cons]
    subst h2
    by_cases h : frameOk f = true
    · simp_all
      omega
    · simp_all

/-- A concrete color intrinsic matrix used for concrete evaluations. -/
def Kcolor0 : Matrix (Fin 3) (Fin 3) ℚ := !![500, 0, 320; 0, 500, 240; 0, 0, 1]

/-- Concrete metadata whose depth intrinsic is absent, so the scaling
fallback branch of `create_intrinsic_from_meta` applies: depth 320×240,
color 640×480. -/
def metaFallback : FrameMeta := ⟨some (320, 240), (640, 480), none, Kcolor0⟩

/-- A frame on which every processing step succeeds. -/
def frameEnvGood : FrameEnv :=
  ⟨true, true, true, some metaFallback, true, true, true, true, true⟩

/-- A frame whose depth image is missing, as in the spec's 10-frame
example: it fails and is skipped. -/
def frameEnvBad : FrameEnv :=
  ⟨true, false, true, some metaFallback, true, true, true, true, true⟩

theorem countP_ok_add_countP_fail (l : List FrameEnv) :
    l.countP (fun f => frameOk f) + l.countP (fun f => !(frameOk f)) =
      l.length := by
  induction l with
  | nil => simp
  | cons a l ih =>
    by_cases h : frameOk a = true
    · simp [List.countP_cons, h]
      omega
    · simp [List.countP_cons, h]
      omega

/-- C1: a frame failure inside a chunk does not abort the sibling
frames: for a non-empty chunk index, `ingest_chunk` reports
`frames_processed` equal to the number of frames on which every step
succeeds, `frames_failed` equal to the number of frames failing some step,
these two summing to the chunk's frame count, and `total_frames` equal to
the session's prior cumulative successful-frame total plus this chunk's
processed count. -/
theorem ingest_chunk_isolates_frame_failures (s : TSDFSession)
    (frames : List FrameEnv) (pv : Bool) (h : frames ≠ []) :
    (ingest_chunk s ⟨true, true, some frames, pv⟩).2.1 =
      .done (frames.countP (fun f => frameOk f))
            (frames.countP (fun f => !(frameOk f)))
            (s.frame_count + frames.countP (fun f => frameOk f)) ∧
    frames.countP (fun f => frameOk f) +
      frames.countP (fun f => !(frameOk f)) = frames.length := by
  obtain ⟨h1, h2, h3, _⟩ := processFrames_spec frames s
  rcases hps : processFrames s frames with ⟨s1, p, q⟩
  rw [hps] at h1 h2 h3
  simp only at h1 h2 h3
  constructor
  · simp only [ingest_chunk, List.isEmpty_iff, hps]
    simp [h, h1, h2, h3]
  · exact countP_ok_add_countP_fail frames

theorem ingest_chunk_isolates_frame_failures_witness :
    ((ingest_chunk (TSDFSession.init "t")
        ⟨true, true, some [frameEnvGood, frameEnvBad], true⟩).2.1 =
      .done ([frameEnvGood, frameEnvBad].countP (fun f => frameOk f))
            ([frameEnvGood, frameEnvBad].countP (fun f => !(frameOk f)))
            ((TSDFSession.init "t").frame_count +
              [frameEnvGood, frameEnvBad].countP (fun f => frameOk f)) ∧
     [frameEnvGood, frameEnvBad].countP (fun f => frameOk f) +
       [frameEnvGood, frameEnvBad].countP (fun f => !(frameOk f)) =
       [frameEnvGood, frameEnvBad].length) ∧
    (ingest_chunk (TSDFSession.init "t")
        ⟨true, true, some [frameEnvGood, frameEnvBad], true⟩).2.1 = .done 1 1 1 :=
  ⟨ingest_chunk_isolates_frame_failures (TSDFSession.init "t")
      [frameEnvGood, frameEnvBad] true (by simp), by decide⟩

/-- C7: the post-chunk preview mesh extraction/write is best-effort: with
the preview block failing, `ingest_chunk` returns the same session state
and the same normal success response as with it succeeding, the response
carries the processed/failed counts, and the integrated frames remain
reflected in the session's frame counter. -/
theorem ingest_chunk_preview_best_effort (s : TSDFSession)
    (frames : List FrameEnv) (h : frames ≠ []) :
    (ingest_chunk s ⟨true, true, some frames, false⟩).1 =
      (ingest_chunk s ⟨true, true, some frames, true⟩).1 ∧
    (ingest_chunk s ⟨true, true, some frames, false⟩).2.1 =
      (ingest_chunk s ⟨true, true, some frames, true⟩).2.1 ∧
    (ingest_chunk s ⟨true, true, some frames, false⟩).2.1 =
      .done (frames.countP (fun f => frameOk f))
            (frames.countP (fun f => !(frameOk f)))
            (s.frame_count + frames.countP (fun f => frameOk f)) ∧
    (ingest_chunk s ⟨true, true, some frames, false⟩).1.frame_count =
      s.frame_count + frames.countP (fun f => frameOk f) := by
  obtain ⟨h1, h2, h3, _⟩ := processFrames_spec frames s
  rcases hps : processFrames s frames with ⟨s1, p, q⟩
  rw [hps] at h1 h2 h3
  simp only at h1 h2 h3
  simp only [ingest_chunk, List.isEmpty_iff, hps]
  simp [h, h1, h2, h3]

theorem ingest_chunk_preview_best_effort_witness :
    (ingest_chunk (TSDFSession.init "t")
        ⟨true, true, some [frameEnvGood], false⟩).1 =
      (ingest_chunk (TSDFSession.init "t")
        ⟨true, true, some [frameEnvGood], true⟩).1 ∧
    (ingest_chunk (TSDFSession.init "t")
        ⟨true, true, some [frameEnvGood], false⟩).2.1 =
      (ingest_chunk (TSDFSession.init "t")
        ⟨true, true, some [frameEnvGood], true⟩).2.1 ∧
    (ingest_chunk (TSDFSession.init "t")
        ⟨true, true, some [frameEnvGood], false⟩).2.1 =
      .done ([frameEnvGood].countP (fun f => frameOk f))
            ([frameEnvGood].countP (fun f => !(frameOk f)))
            ((TSDFSession.init "t").frame_count +
              [frameEnvGood].countP (fun f => frameOk f)) ∧
    (ingest_chunk (TSDFSession.init "t")
        ⟨true, true, some [frameEnvGood], false⟩).1.frame_count =
      (TSDFSession.init "t").frame_count +
        [frameEnvGood].countP (fun f => frameOk f) :=
  ingest_chunk_preview_best_effort (TSDFSession.init "t") [frameEnvGood]
    (by simp)

/-- C9: an `ingest_chunk` call whose chunk index lists zero frames returns
the early dict with `frames_processed = 0` (a response shape without the
`frames_failed`/`total_frames` fields), leaves the session state — volume
flag, frame counter, chunk counter — unchanged, and its event trace shows
no lock acquisition, no mesh extraction and no mesh write, only the
no-frames warning log. -/
theorem ingest_chunk_empty_index (s : TSDFSession) (pv : Bool) :
    ingest_chunk s ⟨true, true, some [], pv⟩ =
      (s, .noFrames 0, [.warnNoFrames]) := by
  simp [ingest_chunk]

/-- The process-wide `sessions` dict (`app.py:69`), token → session. -/
def Registry : Type := List (String × TSDFSession)

/-- Embeds `get_session` (`app.py:72-78`): under the registry lock, look the token
up; if absent, insert a fresh `TSDFSession(token)`; return the (possibly
extended) registry together with the session for the token. -/
def get_session (reg : Registry) (token : String) : Registry × TSDFSession :=
  match List.lookup token reg with
  | some s => (reg, s)
  | none => ((token, TSDFSession.init token) :: reg, TSDFSession.init token)

/-- Environment for one `finalize` call: the vertex/triangle counts the
library's mesh extraction would report for this session's volume, and
whether `o3d.io.write_triangle_mesh` succeeds. -/
structure FinalizeEnv where
  vertices : ℕ
  triangles : ℕ
  writeOk : Bool

/-- The JSON body returned by `finalize` (`app.py:350-357`) or an
`HTTPException` status. -/
inductive FinalizeResponse
  | ok (vertices triangles total_frames : ℕ)
  | error (statusCode : ℕ)
deriving DecidableEq, Repr

/-- Embeds `finalize` (`app.py:317-363`): get-or-create the session, then
under its lock fail with 400 when `tsdf_volume is None`, otherwise extract
the mesh, write the PLY (500 on write failure), and return the vertex and
triangle counts with the session's cumulative `frame_count`.  Returns the
registry after the call, the response, and the event trace. -/
def finalize (reg : Registry) (token : String) (env : FinalizeEnv) :
    Registry × FinalizeResponse × List Event :=
  match get_session reg token with
  | (reg1, s) =>
    if ¬ s.volumeInit then (reg1, .error 400, [.lockAcquire])
    else if ¬ env.writeOk then (reg1, .error 500, [.lockAcquire, .meshExtract])
    else (reg1, .ok env.vertices env.triangles s.frame_count,
          [.lockAcquire, .meshExtract, .meshWrite])

/-- C2: `finalize` fails with the 400 precondition error and performs no
mesh extraction whenever the token's session has no constructed volume —
in particular for a token the registry has never seen — and, when the
volume exists, it returns the extraction's vertex and triangle counts
together with the session's cumulative frame count. -/
theorem finalize_requires_volume (reg : Registry) (token : String)
    (env : FinalizeEnv) :
    ((get_session reg token).2.volumeInit = false →
      (finalize reg token env).2.1 = .error 400 ∧
      Event.meshExtract ∉ (finalize reg token env).2.2) ∧
    (List.lookup token reg = none →
      (finalize reg token env).2.1 = .error 400 ∧
      Event.meshExtract ∉ (finalize reg token env).2.2) ∧
    ((get_session reg token).2.volumeInit = true → env.writeOk = true →
      (finalize reg token env).2.1 =
        .ok env.vertices env.triangles (get_session reg token).2.frame_count) := by
  refine ⟨?_, ?_, ?_⟩
  · intro hv
    rcases hg : get_session reg token with ⟨reg1, s⟩
    rw [hg] at hv
    simp only at hv
    simp [finalize, hg, hv]
  · intro hl
    have hg : get_session reg token =
        ((token, TSDFSession.init token) :: reg, TSDFSession.init token) := by
      simp [get_session, hl]
    simp [finalize, hg, TSDFSession.init]
  · intro hv hw
    rcases hg : get_session reg token with ⟨reg1, s⟩
    rw [hg] at hv
    simp only at hv ⊢
    simp [finalize, hg, hv, hw]

theorem finalize_requires_volume_witness :
    ((finalize ([] : Registry) "t" ⟨5, 3, true⟩).2.1 = .error 400 ∧
      Event.meshExtract ∉ (finalize ([] : Registry) "t" ⟨5, 3, true⟩).2.2) ∧
    (finalize ([("u", ⟨"u", true, 1/50, 2/25, 7, 2⟩)] : Registry) "u"
        ⟨5, 3, true⟩).2.1 =
      .ok 5 3 (get_session
        ([("u", ⟨"u", true, 1/50, 2/25, 7, 2⟩)] : Registry) "u").2.frame_count :=
  ⟨(finalize_requires_volume ([] : Registry) "t" ⟨5, 3, true⟩).2.1 rfl,
   (finalize_requires_volume ([("u", ⟨"u", true, 1/50, 2/25, 7, 2⟩)] : Registry)
      "u" ⟨5, 3, true⟩).2.2 rfl rfl⟩

/-- C10: calling `finalize` on a token with no existing session first runs
the get-or-create on the global registry, so even though the call fails
with the 400 precondition error, it leaves a fresh session entry for that
token in the registry. -/
theorem finalize_inserts_session (reg : Registry) (token : String)
    (env : FinalizeEnv) (h : List.lookup token reg = none) :
    List.lookup token (finalize reg token env).1 =
      some (TSDFSession.init token) ∧
    (finalize reg token env).2.1 = .error 400 := by
  simp [finalize, get_session, h, TSDFSession.init]

theorem finalize_inserts_session_witness :
    List.lookup "tok" (finalize ([] : Registry) "tok" ⟨0, 0, false⟩).1 =
      some (TSDFSession.init "tok") ∧
    (finalize ([] : Registry) "tok" ⟨0, 0, false⟩).2.1 = .error 400 :=
  finalize_inserts_session ([] : Registry) "tok" ⟨0, 0, false⟩ rfl

/-- Modelled from the spec: the per-voxel state of the external TSDF
fusion engine (`o3d.pipelines.integration.ScalableTSDFVolume`, invoked at
`app.py:65`), whose voxel-update implementation is not part of this
repository's sources — a stored signed distance and an accumulated
confidence weight. -/
structure Voxel where
  distance : ℚ
  weight : ℚ
deriving DecidableEq, Repr

/-- Modelled from the spec: the voxel update performed by one frame
integration, §4.3 step 2 —
`distance = (distance·weight + sdf·w_new) / (weight + w_new)` and
`weight = min(weight + w_new, weight_cap)`. -/
def updateVoxel (v : Voxel) (sdf w_new weight_cap : ℚ) : Voxel :=
  ⟨(v.distance * v.weight + sdf * w_new) / (v.weight + w_new),
   min (v.weight + w_new) weight_cap⟩

/-- Iterating the voxel update with the same observation, modelling
integration of the same frame N times. -/
def integrateRepeat (v : Voxel) (sdf w_new weight_cap : ℚ) : ℕ → Voxel
  | 0 => v
  | n + 1 => updateVoxel (integrateRepeat v sdf w_new weight_cap n) sdf w_new weight_cap

/-- C3: one integration stores the weighted running average of the old
distance and the observed sdf and caps the weight at `weight_cap`;
consequently, under a nonnegative observation weight and a voxel weight
within the cap, repeated integration of the same frame never lets the
weight exceed the cap and increases it monotonically. -/
theorem updateVoxel_spec (v : Voxel) (sdf w_new weight_cap : ℚ)
    (hw : 0 ≤ w_new) (hc : v.weight ≤ weight_cap) :
    (updateVoxel v sdf w_new weight_cap).distance =
      (v.distance * v.weight + sdf * w_new) / (v.weight + w_new) ∧
    (updateVoxel v sdf w_new weight_cap).weight =
      min (v.weight + w_new) weight_cap ∧
    (∀ n, (integrateRepeat v sdf w_new weight_cap n).weight ≤ weight_cap) ∧
    (∀ n, (integrateRepeat v sdf w_new weight_cap n).weight ≤
          (integrateRepeat v sdf w_new weight_cap (n + 1)).weight) := by
  have hbound : ∀ n,
      (integrateRepeat v sdf w_new weight_cap n).weight ≤ weight_cap := by
    intro n
    induction n with
    | zero => exact hc
    | succ n ih => exact min_le_right _ _
  refine ⟨rfl, rfl, hbound, ?_⟩
  intro n
  have h1 : (integrateRepeat v sdf w_new weight_cap n).weight ≤
      (integrateRepeat v sdf w_new weight_cap n).weight + w_new := by linarith
  exact le_min h1 (hbound n)

theorem updateVoxel_spec_witness :
    (0 : ℚ) ≤ 1 ∧ (Voxel.mk 1 1).weight ≤ (3 : ℚ) ∧
    ((updateVoxel ⟨1, 1⟩ 0 1 3).distance = (1 * 1 + 0 * 1) / (1 + 1) ∧
     (updateVoxel ⟨1, 1⟩ 0 1 3).weight = min (1 + 1) 3 ∧
     (∀ n, (integrateRepeat ⟨1, 1⟩ 0 1 3 n).weight ≤ 3) ∧
     (∀ n, (integrateRepeat ⟨1, 1⟩ 0 1 3 n).weight ≤
           (integrateRepeat ⟨1, 1⟩ 0 1 3 (n + 1)).weight)) :=
  ⟨by norm_num, by norm_num, updateVoxel_spec ⟨1, 1⟩ 0 1 3 (by norm_num) (by norm_num)⟩

/-- The type of the 4×4 homogeneous transforms the worker manipulates,
with the row/column index split into the 3×3 rotation block and the
homogeneous row/column. -/
abbrev Mat4 : Type := Matrix (Fin 3 ⊕ Unit) (Fin 3 ⊕ Unit) ℚ

/-- A homogeneous rigid transform `[[R, t], [0, 1]]` assembled from its
rotation block and translation vector, the shape of the `T_wc` matrices in
the frame JSON (`app.py:273`). -/
def toHomog (R : Matrix (Fin 3) (Fin 3) ℚ) (t : Fin 3 → ℚ) : Mat4 :=
  Matrix.fromBlocks R (Matrix.of fun i (_ : Unit) => t i) 0 1

/-- Embeds `get_world_to_camera_transform` (`app.py:153-162`):
`np.linalg.inv(T_wc_json)` over exact arithmetic, i.e. the matrix inverse
`det⁻¹ • adjugate` (the unique two-sided inverse whenever the determinant
is nonzero). -/
def get_world_to_camera_transform (T : Mat4) : Mat4 :=
  (Matrix.det T)⁻¹ • Matrix.adjugate T

theorem get_world_to_camera_transform_eq_inv (T : Mat4) :
    get_world_to_camera_transform T = T⁻¹ := by
  rw [Matrix.inv_def, Ring.inverse_eq_inv]
  rfl

theorem mul_colOf (M : Matrix (Fin 3) (Fin 3) ℚ) (v : Fin 3 → ℚ) :
    M * (Matrix.of fun i (_ : Unit) => v i) =
      Matrix.of fun i (_ : Unit) => Matrix.mulVec M v i := by
  ext i j
  simp [Matrix.mul_apply, Matrix.mulVec, Matrix.dotProduct, Fin.sum_univ_three]

theorem homog_left_inverse (R : Matrix (Fin 3) (Fin 3) ℚ) (t : Fin 3 → ℚ)
    (horth : R.transpose * R = 1) :
    toHomog R.transpose (-(Matrix.mulVec R.transpose t)) * toHomog R t = 1 := by
  rw [toHomog, toHomog, Matrix.fromBlocks_multiply]
  rw [horth, mul_colOf]
  have h2 : (Matrix.of fun i (_ : Unit) => Matrix.mulVec R.transpose t i) +
      (Matrix.of fun i (_ : Unit) => (-(Matrix.mulVec R.transpose t)) i) = 0 := by
    ext i j
    simp
  simp only [Matrix.mul_zero, Matrix.zero_mul, Matrix.mul_one, Matrix.one_mul,
    add_zero, zero_add, h2, Matrix.fromBlocks_one]

/-- C4: for a rigid camera-to-world pose — orthonormal rotation block with
determinant 1 — the world-to-camera transform computed by
`get_world_to_camera_transform` equals the closed-form rigid inverse
`[[Rᵀ, -Rᵀt], [0, 1]]`, and applying the computed inversion twice returns
the original pose exactly. -/
theorem get_world_to_camera_rigid_inverse (R : Matrix (Fin 3) (Fin 3) ℚ)
    (t : Fin 3 → ℚ) (horth : R.transpose * R = 1) (_hdet : Matrix.det R = 1) :
    get_world_to_camera_transform (toHomog R t) =
      toHomog R.transpose (-(Matrix.mulVec R.transpose t)) ∧
    get_world_to_camera_transform
        (get_world_to_camera_transform (toHomog R t)) = toHomog R t := by
  have hmul : toHomog R.transpose (-(Matrix.mulVec R.transpose t)) * toHomog R t = 1 :=
    homog_left_inverse R t horth
  have h1 : (toHomog R t)⁻¹ = toHomog R.transpose (-(Matrix.mulVec R.transpose t)) :=
    Matrix.inv_eq_left_inv hmul
  have hmul2 : toHomog R t * toHomog R.transpose (-(Matrix.mulVec R.transpose t)) = 1 := by
    rw [Matrix.mul_eq_one_comm]
    exact hmul
  have h2 : (toHomog R.transpose (-(Matrix.mulVec R.transpose t)))⁻¹ = toHomog R t :=
    Matrix.inv_eq_left_inv hmul2
  constructor
  · rw [get_world_to_camera_transform_eq_inv]
    exact h1
  · rw [get_world_to_camera_transform_eq_inv (toHomog R t), h1,
      get_world_to_camera_transform_eq_inv]
    exact h2

theorem get_world_to_camera_rigid_inverse_witness :
    ((1 : Matrix (Fin 3) (Fin 3) ℚ).transpose * 1 = 1) ∧
    Matrix.det (1 : Matrix (Fin 3) (Fin 3) ℚ) = 1 ∧
    (get_world_to_camera_transform (toHomog 1 ![1, 2, 3]) =
      toHomog (1 : Matrix (Fin 3) (Fin 3) ℚ).transpose
        (-(Matrix.mulVec (1 : Matrix (Fin 3) (Fin 3) ℚ).transpose ![1, 2, 3])) ∧
     get_world_to_camera_transform
        (get_world_to_camera_transform (toHomog 1 ![1, 2, 3])) =
       toHomog 1 ![1, 2, 3]) :=
  ⟨by simp, by simp,
   get_world_to_camera_rigid_inverse 1 ![1, 2, 3] (by simp) (by simp)⟩

theorem create_intrinsic_scaling_witness :
    metaFallback.depthSize = some (320, 240) ∧
    create_intrinsic_from_meta metaFallback true =
      ⟨320, 240,
       metaFallback.K_color 0 0 * (320 / metaFallback.colorSize.1),
       metaFallback.K_color 1 1 * (240 / metaFallback.colorSize.2),
       metaFallback.K_color 0 2 * (320 / metaFallback.colorSize.1),
       metaFallback.K_color 1 2 * (240 / metaFallback.colorSize.2)⟩ :=
  ⟨rfl, (create_intrinsic_scaling metaFallback 320 240 rfl).1 rfl⟩

/-- C6: the degraded-accuracy fallback is silent in the source.  On
metadata with a depth size and no explicit depth intrinsic,
`create_intrinsic_from_meta` returns the fallback-scaled intrinsic
(fx = 500·(320/640) = 250 and so on), yet its emitted log-event trace is
empty — `app.py:121-151` contains no `logger` call — so no warning-level
event records that the intrinsic was derived by scaling. -/
theorem create_intrinsic_fallback_silent :
    (create_intrinsic_from_meta_ev metaFallback true).2 = [] ∧
    (create_intrinsic_from_meta_ev metaFallback true).1 =
      ⟨320, 240, 250, 250, 160, 120⟩ := by
  refine ⟨rfl, ?_⟩
  norm_num [create_intrinsic_from_meta_ev, metaFallback, Kcolor0]
